import Mathlib

/-!
Verification development for the JurisAI2 white-label legal-assistant
front-end.  The definitions below are a shallow embedding of the
TypeScript source:

* `src/hooks/useBranding.ts` — branding record, shallow merge on update,
  persistence, reset;
* `src/utils/api.ts` — the `ApiClient.request` JSON path with its timeout
  classification, `sanitizeInput`, `validateFileType`, `validateFileSize`,
  and the singleton initialisation;
* `src/components/DocumentUpload.tsx` — the `onDrop` handler;
* `src/components/CaseSearch.tsx` — the `handleSearch` guard;
* `src/pages/MainPage.tsx` — `clearChat`;
* `src/App.tsx` — `loadAppConfig` and the loading-screen gate.

JavaScript objects are untyped at runtime (the branding record reaching
`updateBranding` can come from unvalidated `JSON.parse` of local storage),
so branding values are modelled with optional fields at every level; a
record of the TypeScript interface shape is one whose fields are all
present (`isFullBranding`).
-/

namespace JurisAI

/-- JavaScript object-spread semantics for one key: `{...cur, ...p}` keeps
the value from `p` when the key is present in `p`, otherwise the value from `cur`. -/
def jsOverride {α : Type} (p cur : Option α) : Option α :=
  match p with
  | some v => some v
  | none => cur

/-- Runtime value of a `ColorScheme` object (`src/types/index.ts`,
interface `ColorScheme`): seven named color values, each possibly absent
at runtime. -/
structure ColorSchemeVal where
  primary : Option String
  secondary : Option String
  accent : Option String
  background : Option String
  surface : Option String
  text : Option String
  textSecondary : Option String
deriving DecidableEq, Repr

/-- Runtime value of the `colors` field of `BrandingConfig`: light and dark
`ColorScheme` objects, each possibly absent at runtime. -/
structure ColorsVal where
  light : Option ColorSchemeVal
  dark : Option ColorSchemeVal
deriving DecidableEq, Repr

/-- Runtime value of the `fonts` field of `BrandingConfig`. -/
structure FontsVal where
  primary : Option String
  secondary : Option String
deriving DecidableEq, Repr

/-- Runtime value of the `contact` field of `BrandingConfig`. -/
structure ContactVal where
  email : Option String
  phone : Option String
  website : Option String
deriving DecidableEq, Repr

/-- Runtime value of a `BrandingConfig` object (`src/types/index.ts`):
every top-level key possibly absent, as for a `Partial<BrandingConfig>`
or an unvalidated record parsed from local storage. -/
structure BrandingVal where
  appName : Option String
  tagline : Option String
  logo : Option String
  favicon : Option String
  colors : Option ColorsVal
  fonts : Option FontsVal
  contact : Option ContactVal
deriving DecidableEq, Repr

/-- The compiled-in `defaultBranding` record of `src/hooks/useBranding.ts`
(lines 4–38), with every field present. -/
def defaultBranding : BrandingVal :=
  { appName := some "JurisAI"
    tagline := some "Assistente Jurídico Inteligente"
    logo := some "/logo.svg"
    favicon := some "/favicon.ico"
    colors := some
      { light := some
          { primary := some "#1e40af"
            secondary := some "#64748b"
            accent := some "#f59e0b"
            background := some "#ffffff"
            surface := some "#f8fafc"
            text := some "#1e293b"
            textSecondary := some "#64748b" }
        dark := some
          { primary := some "#3b82f6"
            secondary := some "#94a3b8"
            accent := some "#fbbf24"
            background := some "#0f172a"
            surface := some "#1e293b"
            text := some "#f1f5f9"
            textSecondary := some "#94a3b8" } }
    fonts := some { primary := some "Inter", secondary := some "system-ui" }
    contact := some
      { email := some "contato@jurisai.com.br"
        phone := some "+55 11 99999-9999"
        website := some "https://jurisai.com.br" } }

/-- The merge of `updateBranding` (`useBranding.ts` line 70):
`{ ...branding, ...newBranding }` — a shallow spread per top-level key;
a `colors`, `fonts` or `contact` key present in the partial replaces the
whole corresponding object. -/
def updateBranding (branding newBranding : BrandingVal) : BrandingVal :=
  { appName := jsOverride newBranding.appName branding.appName
    tagline := jsOverride newBranding.tagline branding.tagline
    logo := jsOverride newBranding.logo branding.logo
    favicon := jsOverride newBranding.favicon branding.favicon
    colors := jsOverride newBranding.colors branding.colors
    fonts := jsOverride newBranding.fonts branding.fonts
    contact := jsOverride newBranding.contact branding.contact }

/-- State of the branding hook: the in-memory record and the persisted
local-storage override (`localStorage.getItem/setItem/removeItem` on key
`branding`). -/
structure BrandingStore where
  branding : BrandingVal
  stored : Option BrandingVal
deriving DecidableEq, Repr

/-- `updateBranding` as a store operation (`useBranding.ts` lines 69–74):
computes the merged record, sets it as the state and persists it. -/
def storeUpdate (st : BrandingStore) (p : BrandingVal) : BrandingStore :=
  let updatedBranding := updateBranding st.branding p
  { branding := updatedBranding, stored := some updatedBranding }

/-- `resetBranding` (`useBranding.ts` lines 99–103): restores the
compiled-in defaults and removes the persisted override. -/
def storeReset (_st : BrandingStore) : BrandingStore :=
  { branding := defaultBranding, stored := none }

/-- A `ColorScheme` value with all seven keys present. -/
def fullScheme : Option ColorSchemeVal → Bool
  | none => false
  | some s =>
      s.primary.isSome && s.secondary.isSome && s.accent.isSome &&
      s.background.isSome && s.surface.isSome && s.text.isSome &&
      s.textSecondary.isSome

/-- A `colors` value with both variants present and complete. -/
def fullColors : Option ColorsVal → Bool
  | none => false
  | some c => fullScheme c.light && fullScheme c.dark

/-- A `fonts` value with both keys present. -/
def fullFonts : Option FontsVal → Bool
  | none => false
  | some f => f.primary.isSome && f.secondary.isSome

/-- A `contact` value with all three keys present. -/
def fullContact : Option ContactVal → Bool
  | none => false
  | some c => c.email.isSome && c.phone.isSome && c.website.isSome

/-- A branding record of the full `BrandingConfig` interface shape: every
top-level key populated and every nested key present. -/
def isFullBranding (b : BrandingVal) : Bool :=
  b.appName.isSome && b.tagline.isSome && b.logo.isSome &&
  b.favicon.isSome && fullColors b.colors && fullFonts b.fonts &&
  fullContact b.contact

/-- A partial update conforming to the TypeScript type
`Partial<BrandingConfig>`: each top-level key is optional, but a key that
is present carries a complete value of its interface type. -/
def wellTypedPartial (p : BrandingVal) : Bool :=
  (p.colors.isNone || fullColors p.colors) &&
  (p.fonts.isNone || fullFonts p.fonts) &&
  (p.contact.isNone || fullContact p.contact)

/-- Modelled from the words of the spec (for comparison with `updateBranding`):
key-level merge of a partial `ColorScheme` over the current one —
"changes only the ... keys it supplies, leaving ... untouched keys at
their current values". -/
def specMergeScheme (cur : Option ColorSchemeVal) (p : ColorSchemeVal) :
    ColorSchemeVal :=
  { primary := jsOverride p.primary (cur.bind (·.primary))
    secondary := jsOverride p.secondary (cur.bind (·.secondary))
    accent := jsOverride p.accent (cur.bind (·.accent))
    background := jsOverride p.background (cur.bind (·.background))
    surface := jsOverride p.surface (cur.bind (·.surface))
    text := jsOverride p.text (cur.bind (·.text))
    textSecondary := jsOverride p.textSecondary (cur.bind (·.textSecondary)) }

/-- Modelled from the words of the spec: merge of a partial `colors` object at
the `ColorScheme` level — a supplied variant merges key-wise over the
current one, an unsupplied variant keeps its current scheme. -/
def specMergeColors (cur : Option ColorsVal) (p : ColorsVal) : ColorsVal :=
  { light :=
      match p.light with
      | none => cur.bind (·.light)
      | some pl => some (specMergeScheme (cur.bind (·.light)) pl)
    dark :=
      match p.dark with
      | none => cur.bind (·.dark)
      | some pd => some (specMergeScheme (cur.bind (·.dark)) pd) }

/-- Modelled from the words of the spec (`spec.md` §4.1): the update merge the
spec describes — shallow per top-level key, "but color sub-objects merge
at the ColorScheme level". -/
def updateBranding_specMerge (branding newBranding : BrandingVal) :
    BrandingVal :=
  { appName := jsOverride newBranding.appName branding.appName
    tagline := jsOverride newBranding.tagline branding.tagline
    logo := jsOverride newBranding.logo branding.logo
    favicon := jsOverride newBranding.favicon branding.favicon
    colors :=
      match newBranding.colors with
      | none => branding.colors
      | some pc => some (specMergeColors branding.colors pc)
    fonts := jsOverride newBranding.fonts branding.fonts
    contact := jsOverride newBranding.contact branding.contact }

/-! ## API client (`src/utils/api.ts`) -/

/-- A JavaScript `Error` value: its `name` and `message`. -/
structure JsError where
  name : String
  message : String
deriving DecidableEq, Repr

/-- `new Error(msg)` — a plain error, whose `name` is `"Error"`. -/
def mkError (msg : String) : JsError :=
  { name := "Error", message := msg }

/-- Resolved value of `fetch`: the `ok` flag of the response, `status`, and the
parsed JSON body (modelled as a string). -/
structure FetchResponse where
  ok : Bool
  status : Nat
  body : String
deriving DecidableEq, Repr

/-- Outcome of the awaited `fetch` inside `ApiClient.request`:
it resolves with a response, is aborted by the timeout via
`controller.abort()` (which rejects with a DOMException named
`AbortError` — the only source of an `AbortError` in this client), or
rejects with a transport error. -/
inductive FetchOutcome where
  | resolved (resp : FetchResponse)
  | abortedByTimeout
  | transportError (e : JsError)
deriving DecidableEq, Repr

/-- The rejection produced by the timeout-triggered abort. -/
def abortRejection : JsError :=
  { name := "AbortError", message := "The operation was aborted." }

/-- The try-block of `ApiClient.request` (`api.ts` lines 21–37): await the
fetch, throw `HTTP error! status: N` on a non-ok response, otherwise
return the parsed body. -/
def requestAttempt (o : FetchOutcome) : Except JsError String :=
  match o with
  | .resolved response =>
      if !response.ok then
        .error (mkError ("HTTP error! status: " ++ toString response.status))
      else
        .ok response.body
  | .abortedByTimeout => .error abortRejection
  | .transportError e => .error e

/-- `ApiClient.request` (`api.ts` lines 12–45): the result of the try-block run
through the catch-block, which rewrites an error named `AbortError` into
`Error` with message `Request timeout` and rethrows anything else unchanged. -/
def request (o : FetchOutcome) : Except JsError String :=
  match requestAttempt o with
  | .ok v => .ok v
  | .error e =>
      if e.name = "AbortError" then .error (mkError "Request timeout")
      else .error e

/-! ## Input validation utilities (`src/utils/api.ts` lines 124–139) -/

/-- A dropped `File`: its `name`, MIME `type` and `size` in bytes. -/
structure FileData where
  name : String
  type : String
  size : Nat
deriving DecidableEq, Repr

/-- The JavaScript `split(".")`: the (always non-empty) list of segments
of the character list between the dots. -/
def splitOnDot : List Char → List (List Char)
  | [] => [[]]
  | c :: cs =>
      if c = '.' then [] :: splitOnDot cs
      else
        match splitOnDot cs with
        | [] => [[c]]
        | s :: ss => (c :: s) :: ss

/-- The extension computed by `validateFileType` (`api.ts` line 133):
`"." + file.name.split(".").pop()?.toLowerCase()` — a dot followed by the
lower-cased text after the final dot of the name. -/
def fileExtension (name : String) : String :=
  ⟨'.' :: (((splitOnDot name.data).getLast?).getD []).map Char.toLower⟩

/-- `validateFileType` (`api.ts` lines 132–135). -/
def validateFileType (file : FileData) (allowedTypes : List String) : Bool :=
  allowedTypes.contains (fileExtension file.name)

/-- `validateFileSize` (`api.ts` lines 137–139). -/
def validateFileSize (file : FileData) (maxSize : Nat) : Bool :=
  file.size ≤ maxSize

/-! ## `sanitizeInput` (`src/utils/api.ts` lines 124–130)

The four chained steps are modelled on the character list of the string:
`replace(/[<>]/g, ...)` removes every angle bracket;
`replace(/javascript:/gi, ...)` removes every case-insensitive occurrence
of the protocol prefix, scanning left to right and continuing after each
match; `replace(/on\w+=/gi, ...)` removes every greedy match of the
event-handler pattern; `trim()` strips leading and trailing whitespace. -/

/-- A word character of the regex class `\w`. -/
def isWordChar (c : Char) : Bool :=
  (97 ≤ c.toNat && c.toNat ≤ 122) || (65 ≤ c.toNat && c.toNat ≤ 90) ||
  (48 ≤ c.toNat && c.toNat ≤ 57) || c = '_'

/-- Whitespace for the JavaScript `trim()`: ECMA-262 WhiteSpace and
LineTerminator code points. -/
def isJsWhitespace (c : Char) : Bool :=
  [' ', '\t', '\n', '\x0d', '\x0b', '\x0c', '\u00A0', '\uFEFF',
   '\u1680', '\u2000', '\u2001', '\u2002', '\u2003', '\u2004',
   '\u2005', '\u2006', '\u2007', '\u2008', '\u2009', '\u200A',
   '\u2028', '\u2029', '\u202F', '\u205F', '\u3000'].contains c

/-- The characters removed by `replace(/[<>]/g, ...)`. -/
def isAngle (c : Char) : Bool :=
  c = '<' || c = '>'

/-- Case-insensitive prefix test of a pattern against a character list. -/
def lowerMatches : List Char → List Char → Bool
  | [], _ => true
  | _ :: _, [] => false
  | p :: ps, c :: cs => (c.toLower = p) && lowerMatches ps cs

/-- The characters of the pattern `javascript:`. -/
def jsProtocolChars : List Char :=
  ['j', 'a', 'v', 'a', 's', 'c', 'r', 'i', 'p', 't', ':']

/-- `replace(/javascript:/gi, ...)`: scan left to right, removing each
case-insensitive occurrence and continuing after it. -/
def stripJsProtocol : List Char → List Char
  | [] => []
  | c :: cs =>
      if lowerMatches jsProtocolChars (c :: cs) then
        stripJsProtocol ((c :: cs).drop jsProtocolChars.length)
      else
        c :: stripJsProtocol cs
termination_by l => l.length
decreasing_by
  all_goals simp [List.length_drop, jsProtocolChars]
  omega

/-- `replace(/on\w+=/gi, ...)`: scan left to right; at a (case-insensitive)
`on` followed by `\w+=`, drop the whole match and continue after it,
otherwise keep the character and move on by one. Greedy matching of
`\w+=` coincides with taking the maximal word-character run and requiring
the next character to be `=`, because `=` is not a word character. -/
def stripEventHandlers : List Char → List Char
  | [] => []
  | [c] => [c]
  | c :: d :: ds =>
      if c.toLower = 'o' && d.toLower = 'n' then
        if 1 ≤ (ds.takeWhile isWordChar).length &&
            (ds.drop (ds.takeWhile isWordChar).length).head? = some '=' then
          stripEventHandlers (ds.drop ((ds.takeWhile isWordChar).length + 1))
        else
          c :: stripEventHandlers (d :: ds)
      else
        c :: stripEventHandlers (d :: ds)
termination_by l => l.length
decreasing_by
  · simp [List.length_drop]
    omega
  · simp
  · simp

/-- The `trim()` step: drop leading and trailing whitespace characters. -/
def jsTrim (l : List Char) : List Char :=
  ((l.dropWhile isJsWhitespace).reverse.dropWhile isJsWhitespace).reverse

/-- `sanitizeInput` (`api.ts` lines 124–130): remove angle brackets, the
`javascript:` protocol and inline event-handler patterns, then trim. -/
def sanitizeInput (input : String) : String :=
  ⟨jsTrim (stripEventHandlers (stripJsProtocol
    (input.data.filter (fun c => !isAngle c))))⟩

/-! ## Application configuration (`src/types/index.ts`, interface
`AppConfig`) -/

/-- The `api` block of `AppConfig`. -/
structure ApiCfg where
  baseUrl : String
  timeout : Nat
deriving DecidableEq, Repr

/-- The `features` block of `AppConfig`. -/
structure FeatureFlags where
  documentAnalysis : Bool
  caseSearch : Bool
  contractAnalysis : Bool
  jurisprudenceSearch : Bool
  mindMap : Bool
deriving DecidableEq, Repr

/-- The `type` of a `Court`. -/
inductive CourtType where
  | estadual
  | federal
  | superior
deriving DecidableEq, Repr

/-- A `Court` entry (`src/types/index.ts`). -/
structure Court where
  id : String
  name : String
  url : String
  type : CourtType
deriving DecidableEq, Repr

/-- The `fileUpload` block of `AppConfig`. -/
structure FileUploadCfg where
  maxSize : Nat
  allowedTypes : List String
  maxFiles : Nat
deriving DecidableEq, Repr

/-- The `rateLimiting` block of the security configuration. -/
structure RateLimitingCfg where
  enabled : Bool
  requests : Nat
  window : Nat
deriving DecidableEq, Repr

/-- The `security` block of `AppConfig`. -/
structure SecurityCfg where
  enableCSRF : Bool
  enableCORS : Bool
  maxRequestSize : Nat
  rateLimiting : RateLimitingCfg
deriving DecidableEq, Repr

/-- The application configuration (`src/types/index.ts`, `AppConfig`). -/
structure AppConfig where
  api : ApiCfg
  features : FeatureFlags
  courts : List Court
  fileUpload : FileUploadCfg
  security : SecurityCfg
deriving DecidableEq, Repr

/-! ## Documents and the `onDrop` handler
(`src/components/DocumentUpload.tsx` lines 32–65) -/

/-- A `Document` status (`src/types/index.ts`). -/
inductive DocStatus where
  | uploading
  | processing
  | ready
  | error
deriving DecidableEq, Repr

/-- A `MindMapNode` type tag. -/
inductive MindMapType where
  | root
  | category
  | item
deriving DecidableEq, Repr

/-- A `MindMapNode` position. -/
structure MindPosition where
  x : Int
  y : Int
deriving DecidableEq, Repr

/-- A `MindMapNode` (`src/types/index.ts`), with optional children and
position. -/
inductive MindMapNode where
  | node (id label : String) (type : MindMapType)
      (children : Option (List MindMapNode)) (position : Option MindPosition)

/-- A `DocumentAnalysis` payload (`src/types/index.ts`). -/
structure DocumentAnalysis where
  summary : String
  keyPoints : List String
  parties : List String
  dates : List String
  obligations : List String
  risks : List String
  mindMap : Option MindMapNode

/-- A `Document` (`src/types/index.ts`): the upload timestamp is modelled
as a number (milliseconds, as produced by `Date`). -/
structure Document where
  id : String
  name : String
  type : String
  size : Nat
  uploadedAt : Nat
  status : DocStatus
  analysis : Option DocumentAnalysis

/-- The alert for a file of an unsupported type
(`DocumentUpload.tsx` line 38). -/
def typeAlertMsg (name : String) : String :=
  "Tipo de arquivo não suportado: " ++ name

/-- The megabyte figure `maxSize / 1024 / 1024` interpolated into the
size alert; the JavaScript floating-point division is modelled by
natural division, which renders the same digits whenever the configured
limit is a whole number of megabytes. -/
def maxSizeMB (maxSize : Nat) : String :=
  toString (maxSize / 1024 / 1024)

/-- The alert for an oversized file (`DocumentUpload.tsx` line 43),
which states the configured maximum size. -/
def sizeAlertMsg (name : String) (maxSize : Nat) : String :=
  "Arquivo muito grande: " ++ name ++ ". Tamanho máximo: " ++
    maxSizeMB maxSize ++ "MB"

/-- Per-file outcome of the `forEach` body of `onDrop`: an alert with an
early return, or a new `Document` (status `uploading`) whose upload
simulation is started. -/
inductive FileOutcome where
  | rejected (alert : String)
  | accepted (doc : Document)

/-- The `forEach` body of `onDrop` (`DocumentUpload.tsx` lines 35–60):
validate the type, then the size; on success build the `Document` from
the file. The generated id (`Date.now()` plus a random suffix) is passed
in as `id`, and `now` stands for `new Date()`. -/
def dropOutcome (fu : FileUploadCfg) (id : String) (now : Nat)
    (file : FileData) : FileOutcome :=
  if !validateFileType file fu.allowedTypes then
    .rejected (typeAlertMsg file.name)
  else if !validateFileSize file fu.maxSize then
    .rejected (sizeAlertMsg file.name fu.maxSize)
  else
    .accepted
      { id := id, name := file.name, type := file.type, size := file.size
        uploadedAt := now, status := .uploading, analysis := none }

/-- Result of `onDrop`: the final document list, the documents added, the
files whose (simulated) upload pipeline was started, and the alerts
raised, in order. -/
structure OnDropResult where
  docs : List Document
  added : List Document
  uploads : List FileData
  alerts : List String

/-- Accumulation over `acceptedFiles` (`mkId i` is the id generated for
the i-th file): new documents, started uploads and alerts, in file
order. -/
def onDropGo (fu : FileUploadCfg) (mkId : Nat → String) (now : Nat) :
    Nat → List FileData → List Document × List FileData × List String
  | _, [] => ([], [], [])
  | i, f :: fs =>
      let r := onDropGo fu mkId now (i + 1) fs
      match dropOutcome fu (mkId i) now f with
      | .rejected a => (r.1, r.2.1, a :: r.2.2)
      | .accepted d => (d :: r.1, f :: r.2.1, r.2.2)

/-- `onDrop` (`DocumentUpload.tsx` lines 32–65): validate each dropped
file, collect the accepted ones, start their upload simulations, and
append them to the document list when at least one was accepted. -/
def onDrop (fu : FileUploadCfg) (mkId : Nat → String) (now : Nat)
    (documents : List Document) (acceptedFiles : List FileData) :
    OnDropResult :=
  let r := onDropGo fu mkId now 0 acceptedFiles
  { docs := if r.1.length > 0 then documents ++ r.1 else documents
    added := r.1, uploads := r.2.1, alerts := r.2.2 }

/-! ## Case search (`src/components/CaseSearch.tsx` lines 16–88) -/

/-- A `CaseEvent` type tag. -/
inductive CaseEventType where
  | decision
  | hearing
  | filing
  | deadline
deriving DecidableEq, Repr

/-- A `CaseEvent` (`src/types/index.ts`); dates are modelled by their
source strings. -/
structure CaseEvent where
  id : String
  date : String
  description : String
  type : CaseEventType
deriving DecidableEq, Repr

/-- A deadline priority. -/
inductive DeadlinePriority where
  | high
  | medium
  | low
deriving DecidableEq, Repr

/-- A `Deadline` (`src/types/index.ts`). -/
structure CaseDeadline where
  id : String
  date : String
  description : String
  priority : DeadlinePriority
  completed : Bool
deriving DecidableEq, Repr

/-- A `CaseInfo` (`src/types/index.ts`). -/
structure CaseInfo where
  number : String
  court : String
  status : String
  parties : List String
  subject : String
  lastUpdate : String
  timeline : List CaseEvent
  deadlines : List CaseDeadline
deriving DecidableEq, Repr

/-- The mock case data built by `handleSearch` (`CaseSearch.tsx` lines
31–80); the court field is
`courts.find(c => c.id === selectedCourt)?.name || selectedCourt`, so an
empty or missing name falls back to the selected id. -/
def mockCaseInfo (courts : List Court) (caseNumber selectedCourt : String)
    (now : String) : CaseInfo :=
  { number := caseNumber
    court :=
      match courts.find? (fun c => c.id = selectedCourt) with
      | some c => if c.name = "" then selectedCourt else c.name
      | none => selectedCourt
    status := "Em andamento"
    parties := ["João Silva", "Empresa XYZ Ltda."]
    subject := "Ação de Cobrança"
    lastUpdate := now
    timeline :=
      [{ id := "1", date := "2024-01-15"
         description := "Distribuição do processo", type := .filing },
       { id := "2", date := "2024-02-01"
         description := "Citação da parte requerida", type := .filing },
       { id := "3", date := "2024-02-20"
         description := "Apresentação de contestação", type := .filing },
       { id := "4", date := "2024-03-10"
         description := "Audiência de conciliação designada"
         type := .hearing }]
    deadlines :=
      [{ id := "1", date := "2024-03-10"
         description := "Audiência de conciliação", priority := .high
         completed := false },
       { id := "2", date := "2024-03-25"
         description := "Prazo para manifestação sobre documentos"
         priority := .medium, completed := false }] }

/-- The component state of `CaseSearch`. -/
structure CaseSearchState where
  caseNumber : String
  selectedCourt : String
  isSearching : Bool
  caseInfo : Option CaseInfo
  error : String
deriving DecidableEq, Repr

/-- The inline validation message of `handleSearch`
(`CaseSearch.tsx` line 18). -/
def caseSearchValidationMsg : String :=
  "Por favor, informe o número do processo e selecione o tribunal."

/-- The `trim()` of a string, as used by `handleSearch`. -/
def jsTrimStr (s : String) : String :=
  ⟨jsTrim s.data⟩

/-- `handleSearch` (`CaseSearch.tsx` lines 16–88), collapsed to its final
state at its well-defined await points: if the trimmed case number or the
selected court is empty (falsy), only the error message is set and the
function returns; otherwise the search runs (the returned flag) and ends
with the mock case data set, the error cleared and `isSearching` back to
`false`. -/
def handleSearch (courts : List Court) (now : String)
    (s : CaseSearchState) : CaseSearchState × Bool :=
  if jsTrimStr s.caseNumber = "" || s.selectedCourt = "" then
    ({ s with error := caseSearchValidationMsg }, false)
  else
    ({ s with
        isSearching := false
        error := ""
        caseInfo := some (mockCaseInfo courts s.caseNumber s.selectedCourt now) },
      true)

/-! ## Chat (`src/pages/MainPage.tsx`) -/

/-- A `ChatMessage` role (`type` field). -/
inductive MsgRole where
  | user
  | assistant
deriving DecidableEq, Repr

/-- The optional `metadata` of a `ChatMessage`. -/
structure ChatMetadata where
  documentId : Option String
  analysisType : Option String
  caseNumber : Option String
deriving DecidableEq, Repr

/-- A `ChatMessage` (`src/types/index.ts`); the timestamp is modelled as a
number. -/
structure ChatMessage where
  id : String
  type : MsgRole
  content : String
  timestamp : Nat
  metadata : Option ChatMetadata
deriving DecidableEq, Repr

/-- The assistant greeting text built from the branding `appName`
(`MainPage.tsx`, used both for the initial state and by `clearChat`). -/
def greetingContent (appName : String) : String :=
  "Olá! Sou o " ++ appName ++
    ", seu assistente jurídico inteligente. Como posso ajudá-lo hoje?"

/-- The greeting message with id `1` and type `assistant`. -/
def greetingMessage (appName : String) (now : Nat) : ChatMessage :=
  { id := "1", type := .assistant, content := greetingContent appName
    timestamp := now, metadata := none }

/-- `clearChat` (`MainPage.tsx` lines 100–109): replace the message list
with the single greeting built from the current branding `appName`. -/
def clearChat (appName : String) (now : Nat)
    (_messages : List ChatMessage) : List ChatMessage :=
  [greetingMessage appName now]

/-! ## Application startup (`src/App.tsx`) -/

/-- The `ApiClient` as constructed by its constructor
(`api.ts` lines 7–10): the base URL and timeout taken from the
configuration. -/
structure ApiClient where
  baseUrl : String
  timeout : Nat
deriving DecidableEq, Repr

/-- `initializeApi` (`api.ts` lines 111–114): construct the client from a
configuration. -/
def initializeApi (config : AppConfig) : ApiClient :=
  { baseUrl := config.api.baseUrl, timeout := config.api.timeout }

/-- Outcome of the `fetch` of `/config/app.json` in `loadAppConfig`:
an ok response with a parsed configuration, a non-ok response, or a
rejection (caught and logged). -/
inductive ConfigFetchOutcome where
  | success (config : AppConfig)
  | httpFailure (status : Nat)
  | networkFailure (e : JsError)
deriving DecidableEq, Repr

/-- The startup state owned by `App`: the loaded configuration and the
module-level `apiClient` singleton (both initially absent). -/
structure AppStartState where
  appConfig : Option AppConfig
  apiClient : Option ApiClient
deriving DecidableEq, Repr

/-- `loadAppConfig` (`App.tsx` lines 172–183): only an ok response sets
the configuration and initializes the API client; a non-ok response or a
caught rejection leaves the state untouched. -/
def loadAppConfig (o : ConfigFetchOutcome) (s : AppStartState) :
    AppStartState :=
  match o with
  | .success config =>
      { appConfig := some config, apiClient := some (initializeApi config) }
  | .httpFailure _ => s
  | .networkFailure _ => s

/-- What `App` renders. -/
inductive Screen where
  | loadingScreen
  | routes
deriving DecidableEq, Repr

/-- The render gate of `App` (`App.tsx` lines 196–198): the loading
screen while `isLoading || brandingLoading || !appConfig`, the routes
otherwise. -/
def renderApp (isLoading brandingLoading : Bool)
    (appConfig : Option AppConfig) : Screen :=
  if isLoading || brandingLoading || appConfig.isNone then .loadingScreen
  else .routes

/-- `getApiClient` (`api.ts` lines 116–121): an explicit error before
initialization, the client afterwards. -/
def getApiClient (s : AppStartState) : Except JsError ApiClient :=
  match s.apiClient with
  | none =>
      .error (mkError "API client not initialized. Call initializeApi first.")
  | some c => .ok c

/-! ## Concrete sample inputs used by counterexamples and witnesses -/

/-- A partial update supplying only a light-primary color override — a
value the runtime admits (for example a branding record read back from a
hand-edited or legacy local-storage entry and then committed by the
setup wizard). -/
def partialLightPrimary : BrandingVal :=
  { appName := none, tagline := none, logo := none, favicon := none
    colors := some
      { light := some
          { primary := some "#111111", secondary := none, accent := none
            background := none, surface := none, text := none
            textSecondary := none }
        dark := none }
    fonts := none, contact := none }

/-- A complete light scheme used to build a colors override that supplies
the whole light variant but omits the dark variant. -/
def lightOnlyScheme : ColorSchemeVal :=
  { primary := some "#222222", secondary := some "#333333"
    accent := some "#444444", background := some "#555555"
    surface := some "#666666", text := some "#777777"
    textSecondary := some "#888888" }

/-- A partial update whose colors override supplies a complete light
variant but no dark variant. -/
def partialLightOnly : BrandingVal :=
  { appName := none, tagline := none, logo := none, favicon := none
    colors := some { light := some lightOnlyScheme, dark := none }
    fonts := none, contact := none }

/-- A type-conforming partial update supplying only a new name. -/
def partialNameOnly : BrandingVal :=
  { appName := some "Escritório Silva", tagline := none, logo := none
    favicon := none, colors := none, fonts := none, contact := none }

/-- The default `fileUpload` configuration shipped with the application:
10 MB limit and the four supported extensions. -/
def sampleUploadCfg : FileUploadCfg :=
  { maxSize := 10485760
    allowedTypes := [".pdf", ".doc", ".docx", ".txt"]
    maxFiles := 10 }

/-- An id generator standing in for `Date.now()` plus a random suffix. -/
def sampleMkId : Nat → String :=
  fun i => toString i

/-- A dropped file with a disallowed extension and an oversized body. -/
def bigExeFile : FileData :=
  { name := "parecer.exe", type := "application/x-msdownload"
    size := 20971520 }

/-- A dropped file with a disallowed extension and a small body. -/
def smallExeFile : FileData :=
  { name := "script.exe", type := "application/x-msdownload", size := 100 }

/-! # Theorems -/

theorem jsOverride_none {α : Type} (b : Option α) :
    jsOverride none b = b := rfl

theorem jsOverride_some {α : Type} (v : α) (b : Option α) :
    jsOverride (some v) b = some v := rfl

theorem jsOverride_isSome {α : Type} (a b : Option α) :
    (jsOverride a b).isSome = (a.isSome || b.isSome) := by
  cases a <;> rfl

theorem isNone_or_isSome {α : Type} (a : Option α) :
    (a.isNone || a.isSome) = true := by
  cases a <;> rfl

theorem jsOverride_keeps {α : Type} (F : Option α → Bool) {a b : Option α}
    (hb : F b = true) (ha : (a.isNone || F a) = true) :
    F (jsOverride a b) = true := by
  cases a with
  | none => simpa [jsOverride] using hb
  | some v => simpa [jsOverride, Option.isNone] using ha

/-- A type-conforming partial merged over a complete record leaves a
complete record: each top-level key of the result is either the complete
value supplied by the partial or the complete current value. -/
theorem updateBranding_preserves_full {b p : BrandingVal}
    (hb : isFullBranding b = true) (hp : wellTypedPartial p = true) :
    isFullBranding (updateBranding b p) = true := by
  simp only [isFullBranding, Bool.and_eq_true] at hb
  simp only [wellTypedPartial, Bool.and_eq_true] at hp
  obtain ⟨⟨⟨⟨⟨⟨h1, h2⟩, h3⟩, h4⟩, h5⟩, h6⟩, h7⟩ := hb
  obtain ⟨⟨g1, g2⟩, g3⟩ := hp
  simp only [isFullBranding, updateBranding, Bool.and_eq_true]
  refine ⟨⟨⟨⟨⟨⟨?_, ?_⟩, ?_⟩, ?_⟩, ?_⟩, ?_⟩, ?_⟩
  · exact jsOverride_keeps Option.isSome h1 (by rw [isNone_or_isSome])
  · exact jsOverride_keeps Option.isSome h2 (by rw [isNone_or_isSome])
  · exact jsOverride_keeps Option.isSome h3 (by rw [isNone_or_isSome])
  · exact jsOverride_keeps Option.isSome h4 (by rw [isNone_or_isSome])
  · exact jsOverride_keeps fullColors h5 g1
  · exact jsOverride_keeps fullFonts h6 g2
  · exact jsOverride_keeps fullContact h7 g3

/-- Invariant of folded store updates: the branding record stays complete
and local storage holds nothing or exactly the current record. -/
theorem storeUpdate_foldl_invariant (ps : List BrandingVal) :
    ∀ st : BrandingStore, isFullBranding st.branding = true →
      (st.stored = none ∨ st.stored = some st.branding) →
      (∀ p ∈ ps, wellTypedPartial p = true) →
      isFullBranding ((ps.foldl storeUpdate st).branding) = true ∧
        ((ps.foldl storeUpdate st).stored = none ∨
          (ps.foldl storeUpdate st).stored =
            some ((ps.foldl storeUpdate st).branding)) := by
  induction ps with
  | nil => intro st h1 h2 _; exact ⟨h1, h2⟩
  | cons p ps ih =>
      intro st h1 h2 hwt
      have hp : wellTypedPartial p = true := hwt p (List.mem_cons_self p ps)
      have hrest : ∀ q ∈ ps, wellTypedPartial q = true :=
        fun q hq => hwt q (List.mem_cons_of_mem p hq)
      have hstep : isFullBranding ((storeUpdate st p).branding) = true :=
        updateBranding_preserves_full h1 hp
      exact ih (storeUpdate st p) hstep (Or.inr rfl) hrest

/-- C1 (corrected). `updateBranding` merges the partial over the current
record shallowly per top-level key and persists the full merged result;
the `colors` field is treated exactly like every other top-level key — a
supplied `colors` value replaces the entire current `colors` object
(there is no `ColorScheme`-level merge). -/
theorem updateBranding_shallow_replaces_colors (st : BrandingStore)
    (p : BrandingVal) :
    storeUpdate st p =
      { branding := updateBranding st.branding p
        stored := some (updateBranding st.branding p) } ∧
    (p.appName = none →
      (updateBranding st.branding p).appName = st.branding.appName) ∧
    (∀ v, p.appName = some v →
      (updateBranding st.branding p).appName = some v) ∧
    (p.tagline = none →
      (updateBranding st.branding p).tagline = st.branding.tagline) ∧
    (∀ v, p.tagline = some v →
      (updateBranding st.branding p).tagline = some v) ∧
    (p.logo = none →
      (updateBranding st.branding p).logo = st.branding.logo) ∧
    (∀ v, p.logo = some v →
      (updateBranding st.branding p).logo = some v) ∧
    (p.favicon = none →
      (updateBranding st.branding p).favicon = st.branding.favicon) ∧
    (∀ v, p.favicon = some v →
      (updateBranding st.branding p).favicon = some v) ∧
    (p.colors = none →
      (updateBranding st.branding p).colors = st.branding.colors) ∧
    (∀ c, p.colors = some c →
      (updateBranding st.branding p).colors = some c) ∧
    (p.fonts = none →
      (updateBranding st.branding p).fonts = st.branding.fonts) ∧
    (∀ v, p.fonts = some v →
      (updateBranding st.branding p).fonts = some v) ∧
    (p.contact = none →
      (updateBranding st.branding p).contact = st.branding.contact) ∧
    (∀ v, p.contact = some v →
      (updateBranding st.branding p).contact = some v) := by
  refine ⟨rfl, ?_, ?_, ?_, ?_, ?_, ?_, ?_, ?_, ?_, ?_, ?_, ?_, ?_, ?_⟩
  all_goals
    first
      | (intro h; simp [updateBranding, h, jsOverride])
      | (intro v h; simp [updateBranding, h, jsOverride])

/-- C1 witness: concrete instance — a supplied colors value replaces the
whole colors object, and an unsupplied name keeps its current value. -/
theorem updateBranding_shallow_replaces_colors_witness :
    (updateBranding defaultBranding partialLightOnly).colors =
      some { light := some lightOnlyScheme, dark := none } ∧
    (updateBranding defaultBranding partialLightOnly).appName =
      defaultBranding.appName := by
  obtain ⟨-, ha, -, -, -, -, -, -, -, -, hc, -, -, -, -⟩ :=
    updateBranding_shallow_replaces_colors
      ⟨defaultBranding, none⟩ partialLightOnly
  exact ⟨hc _ rfl, ha rfl⟩

/-- C1 counterexample: on the partial that overrides only the light
primary color, the record the code produces is not the record described
by the spec (a ColorScheme-level merge) — the code drops the current dark
scheme and the six untouched light keys. -/
theorem updateBranding_not_colorscheme_merge :
    (storeUpdate ⟨defaultBranding, none⟩ partialLightPrimary).branding ≠
      updateBranding_specMerge defaultBranding partialLightPrimary := by
  decide

/-- C2 (corrected). Starting from the complete compiled-in defaults,
every sequence of type-conforming partial updates (each supplied
top-level value complete, as `Partial<BrandingConfig>` requires) leaves a
record with every `BrandingConfig` key populated and all seven
`ColorScheme` keys present for both variants, and local storage holds
nothing or exactly that record. -/
theorem updates_keep_record_full (ps : List BrandingVal)
    (hwt : ∀ p ∈ ps, wellTypedPartial p = true) :
    isFullBranding
        ((ps.foldl storeUpdate ⟨defaultBranding, none⟩).branding) = true ∧
      ((ps.foldl storeUpdate ⟨defaultBranding, none⟩).stored = none ∨
        (ps.foldl storeUpdate ⟨defaultBranding, none⟩).stored =
          some ((ps.foldl storeUpdate ⟨defaultBranding, none⟩).branding)) :=
  storeUpdate_foldl_invariant ps ⟨defaultBranding, none⟩ (by decide)
    (Or.inl rfl) hwt

/-- C2 witness: one concrete type-conforming update keeps the record
complete. -/
theorem updates_keep_record_full_witness :
    isFullBranding
        (([partialNameOnly].foldl storeUpdate
          ⟨defaultBranding, none⟩).branding) = true := by
  exact (updates_keep_record_full [partialNameOnly]
    (fun p hp => by rw [List.mem_singleton] at hp; subst hp; decide)).1

/-- C2 counterexample: an update whose colors override omits the dark
variant — admissible at runtime and reachable through the setup wizard
committing a record loaded from unvalidated local storage — leaves the
stored record with the dark scheme absent. -/
theorem update_can_drop_dark_scheme :
    isFullBranding
        (([partialLightOnly].foldl storeUpdate
          ⟨defaultBranding, none⟩).branding) = false := by
  decide

/-- C3 (confirmed). After any sequence of updates from any initial store
state, `resetBranding` leaves exactly the compiled-in default record and
removes the persisted override. -/
theorem reset_after_updates_restores_defaults (ps : List BrandingVal)
    (st : BrandingStore) :
    storeReset (ps.foldl storeUpdate st) =
      { branding := defaultBranding, stored := none } ∧
    (storeReset (ps.foldl storeUpdate st)).branding = defaultBranding ∧
    (storeReset (ps.foldl storeUpdate st)).stored = none :=
  ⟨rfl, rfl, rfl⟩

/-- C4 (confirmed). A fetch aborted by the timeout always yields the
error `Request timeout`; a non-2xx response yields the generic
`HTTP error! status: N` error, whose message is never `Request timeout`;
a transport error passes through unchanged, so it carries its own
message, not the timeout one. -/
theorem request_timeout_classified :
    request .abortedByTimeout = .error (mkError "Request timeout") ∧
    (∀ resp : FetchResponse, resp.ok = false →
      request (.resolved resp) =
        .error (mkError ("HTTP error! status: " ++ toString resp.status)) ∧
      ("HTTP error! status: " ++ toString resp.status) ≠ "Request timeout") ∧
    (∀ e : JsError, e.name ≠ "AbortError" →
      request (.transportError e) = .error e) := by
  refine ⟨rfl, ?_, ?_⟩
  · intro resp hok
    constructor
    · simp [request, requestAttempt, hok, mkError]
    · intro hEq
      have hlen := congrArg String.length hEq
      rw [String.length_append] at hlen
      have h20 : ("HTTP error! status: " : String).length = 20 := rfl
      have h15 : ("Request timeout" : String).length = 15 := rfl
      omega
  · intro e hname
    simp [request, requestAttempt, hname]

/-- C4 witness: a concrete 500 response and a concrete transport error
both produce errors other than the timeout one. -/
theorem request_timeout_classified_witness :
    request (.resolved ⟨false, 500, ""⟩) =
      .error (mkError ("HTTP error! status: " ++ toString (500 : Nat))) ∧
    request (.transportError ⟨"TypeError", "Failed to fetch"⟩) =
      .error ⟨"TypeError", "Failed to fetch"⟩ := by
  refine ⟨(request_timeout_classified.2.1 ⟨false, 500, ""⟩ rfl).1, ?_⟩
  exact request_timeout_classified.2.2 ⟨"TypeError", "Failed to fetch"⟩
    (by decide)

/-- C7 (confirmed). Submitting the case search with an empty or
whitespace-only case number sets only the inline validation message:
no search is executed, `isSearching` is untouched, and the case info is
unchanged. -/
theorem empty_case_number_blocks_search (courts : List Court)
    (now : String) (s : CaseSearchState)
    (h : jsTrimStr s.caseNumber = "") :
    handleSearch courts now s =
      ({ s with error := caseSearchValidationMsg }, false) ∧
    (handleSearch courts now s).1.caseInfo = s.caseInfo ∧
    (handleSearch courts now s).1.isSearching = s.isSearching ∧
    (handleSearch courts now s).2 = false := by
  have hcond : (jsTrimStr s.caseNumber = "" || s.selectedCourt = "") = true := by
    simp [h]
  refine ⟨?_, ?_, ?_, ?_⟩ <;> simp [handleSearch, hcond]

/-- C7 witness: a whitespace-only case number at a concrete state. -/
theorem empty_case_number_blocks_search_witness :
    handleSearch [] "2024-05-01"
        { caseNumber := "   ", selectedCourt := "tjsp", isSearching := false
          caseInfo := none, error := "" } =
      ({ caseNumber := "   ", selectedCourt := "tjsp", isSearching := false
         caseInfo := none, error := caseSearchValidationMsg }, false) := by
  exact (empty_case_number_blocks_search [] "2024-05-01"
    { caseNumber := "   ", selectedCourt := "tjsp", isSearching := false
      caseInfo := none, error := "" } (by decide)).1

/-- C8 (confirmed). `clearChat` replaces any message list with exactly
one message: the assistant greeting built from the current branding
`appName`. -/
theorem clearChat_single_greeting (appName : String) (now : Nat)
    (messages : List ChatMessage) :
    clearChat appName now messages = [greetingMessage appName now] ∧
    (clearChat appName now messages).length = 1 ∧
    (greetingMessage appName now).type = .assistant ∧
    (greetingMessage appName now).content = greetingContent appName :=
  ⟨rfl, rfl, rfl, rfl⟩

/-- C9 (confirmed). When the configuration fetch fails (non-ok response
or rejection), the startup state is unchanged: the configuration stays
absent, the API client singleton is never initialized, `App` keeps
rendering the loading screen whatever the other loading flags are, and
`getApiClient` still fails with the not-initialized error. -/
theorem config_failure_keeps_loading (o : ConfigFetchOutcome)
    (s : AppStartState) (hfail : ∀ cfg, o ≠ .success cfg)
    (hcfg : s.appConfig = none) (hapi : s.apiClient = none) :
    (loadAppConfig o s).appConfig = none ∧
    (loadAppConfig o s).apiClient = none ∧
    (∀ isLoading brandingLoading : Bool,
      renderApp isLoading brandingLoading (loadAppConfig o s).appConfig =
        .loadingScreen) ∧
    getApiClient (loadAppConfig o s) =
      .error (mkError "API client not initialized. Call initializeApi first.") := by
  cases o with
  | success cfg => exact absurd rfl (hfail cfg)
  | httpFailure status =>
      refine ⟨hcfg, hapi, ?_, ?_⟩
      · intro il bl; simp [renderApp, loadAppConfig, hcfg]
      · simp [getApiClient, loadAppConfig, hapi]
  | networkFailure e =>
      refine ⟨hcfg, hapi, ?_, ?_⟩
      · intro il bl; simp [renderApp, loadAppConfig, hcfg]
      · simp [getApiClient, loadAppConfig, hapi]

/-- C9 witness: a concrete 404 on the configuration resource leaves the
initial state loading. -/
theorem config_failure_keeps_loading_witness :
    (loadAppConfig (.httpFailure 404) ⟨none, none⟩).appConfig = none ∧
    renderApp false false
        (loadAppConfig (.httpFailure 404) ⟨none, none⟩).appConfig =
      .loadingScreen := by
  have h := config_failure_keeps_loading (.httpFailure 404) ⟨none, none⟩
    (fun cfg => by simp) rfl rfl
  exact ⟨h.1, h.2.2.1 false false⟩

/-- Inversion of the `forEach` body: an accepted document comes from a
file that passed both checks and carries its name and size. -/
theorem dropOutcome_accepted {fu : FileUploadCfg} {id : String} {now : Nat}
    {f : FileData} {d : Document}
    (h : dropOutcome fu id now f = .accepted d) :
    validateFileType f fu.allowedTypes = true ∧
      validateFileSize f fu.maxSize = true ∧
      d.name = f.name ∧ d.size = f.size := by
  by_cases h1 : validateFileType f fu.allowedTypes
  · by_cases h2 : validateFileSize f fu.maxSize
    · simp only [dropOutcome, h1, h2, Bool.not_true, Bool.false_eq_true,
        if_false, FileOutcome.accepted.injEq] at h
      exact ⟨h1, h2, by rw [← h], by rw [← h]⟩
    · simp [dropOutcome, h1, h2] at h
  · simp [dropOutcome, h1] at h

/-- Every document accumulated by `onDrop` passed the type check (its
extension is in the allowed list) and the size check. -/
theorem onDropGo_added_sound (fu : FileUploadCfg) (mkId : Nat → String)
    (now : Nat) (files : List FileData) :
    ∀ i : Nat,
      (∀ d ∈ (onDropGo fu mkId now i files).1,
        fu.allowedTypes.contains (fileExtension d.name) = true ∧
          d.size ≤ fu.maxSize) ∧
      (∀ g ∈ (onDropGo fu mkId now i files).2.1,
        validateFileType g fu.allowedTypes = true ∧
          validateFileSize g fu.maxSize = true) := by
  induction files with
  | nil => intro i; simp [onDropGo]
  | cons f fs ih =>
      intro i
      obtain ⟨ihd, ihu⟩ := ih (i + 1)
      cases hout : dropOutcome fu (mkId i) now f with
      | rejected a =>
          simp only [onDropGo, hout]
          exact ⟨ihd, ihu⟩
      | accepted d =>
          obtain ⟨h1, h2, hname, hsize⟩ := dropOutcome_accepted hout
          simp only [onDropGo, hout]
          constructor
          · intro e he
            rcases List.mem_cons.mp he with he | he
            · subst he
              refine ⟨?_, ?_⟩
              · rw [hname]; exact h1
              · rw [hsize]; exact of_decide_eq_true h2
            · exact ihd e he
          · intro g hg
            rcases List.mem_cons.mp hg with hg | hg
            · subst hg; exact ⟨h1, h2⟩
            · exact ihu g hg

/-- When a dropped file passes the type check but fails the size check,
the size-specific alert (stating the maximum size) is raised. -/
theorem onDropGo_size_alert (fu : FileUploadCfg) (mkId : Nat → String)
    (now : Nat) (files : List FileData) :
    ∀ (i : Nat) (f : FileData), f ∈ files →
      validateFileType f fu.allowedTypes = true →
      validateFileSize f fu.maxSize = false →
      sizeAlertMsg f.name fu.maxSize ∈ (onDropGo fu mkId now i files).2.2 := by
  induction files with
  | nil => intro i f hmem; exact absurd hmem (List.not_mem_nil f)
  | cons g gs ih =>
      intro i f hmem h1 h2
      rcases List.mem_cons.mp hmem with hf | hf
      · subst hf
        have hout : dropOutcome fu (mkId i) now f =
            .rejected (sizeAlertMsg f.name fu.maxSize) := by
          simp [dropOutcome, h1, h2]
        simp only [onDropGo, hout]
        exact List.mem_cons_self _ _
      · have hrec := ih (i + 1) f hf h1 h2
        cases hout : dropOutcome fu (mkId i) now g with
        | rejected a => simp only [onDropGo, hout]; exact List.mem_cons_of_mem _ hrec
        | accepted d => simp only [onDropGo, hout]; exact hrec

/-- C5 (confirmed). A dropped file whose computed extension is not in the
allowed list is never added to the document list — neither among the new
documents nor in the resulting list beyond what was already there — and
no upload (simulated pipeline, standing where a network transfer would
be) is ever started for it. -/
theorem bad_extension_never_added (fu : FileUploadCfg)
    (mkId : Nat → String) (now : Nat) (documents : List Document)
    (files : List FileData) (f : FileData) (hmem : f ∈ files)
    (hbad : validateFileType f fu.allowedTypes = false) :
    (∀ d ∈ (onDrop fu mkId now documents files).added, d.name ≠ f.name) ∧
    (∀ g ∈ (onDrop fu mkId now documents files).uploads, g.name ≠ f.name) ∧
    (∀ d ∈ (onDrop fu mkId now documents files).docs,
      d ∈ documents ∨ d.name ≠ f.name) := by
  obtain ⟨hadd, hup⟩ := onDropGo_added_sound fu mkId now files 0
  have haddNe : ∀ d ∈ (onDropGo fu mkId now 0 files).1, d.name ≠ f.name := by
    intro d hd hEq
    have := (hadd d hd).1
    rw [hEq] at this
    rw [validateFileType] at hbad
    rw [this] at hbad
    exact Bool.true_eq_false.mp hbad
  refine ⟨haddNe, ?_, ?_⟩
  · intro g hg hEq
    have := (hup g hg).1
    rw [validateFileType, hEq] at this
    rw [validateFileType] at hbad
    rw [this] at hbad
    exact Bool.true_eq_false.mp hbad
  · intro d hd
    by_cases hlen : (onDropGo fu mkId now 0 files).1.length > 0
    · rw [onDrop] at hd
      simp only [hlen, if_pos] at hd
      rcases List.mem_append.mp hd with hd | hd
      · exact Or.inl hd
      · exact Or.inr (haddNe d hd)
    · rw [onDrop] at hd
      simp only [hlen, if_neg] at hd
      exact Or.inl hd

/-- C5 witness: a small `.exe` file against the shipped upload
configuration is neither added nor uploaded. -/
theorem bad_extension_never_added_witness :
    (∀ d ∈ (onDrop sampleUploadCfg sampleMkId 0 [] [smallExeFile]).added,
      d.name ≠ smallExeFile.name) ∧
    (onDrop sampleUploadCfg sampleMkId 0 [] [smallExeFile]).added.length
      = 0 := by
  have h := bad_extension_never_added sampleUploadCfg sampleMkId 0 []
    [smallExeFile] smallExeFile (List.mem_singleton.mpr rfl) (by decide)
  exact ⟨h.1, rfl⟩

/-- C6 (corrected). A dropped file that passes the type check and exceeds
the maximum size is rejected with the size-specific alert, which states
the configured maximum; any file exceeding the maximum size is never
added to the document list; and a file within the limit is not rejected
by the size check. -/
theorem oversized_rejected_with_size_message (fu : FileUploadCfg)
    (mkId : Nat → String) (now : Nat) (documents : List Document)
    (files : List FileData) (f : FileData) (hmem : f ∈ files) :
    (validateFileType f fu.allowedTypes = true → fu.maxSize < f.size →
      sizeAlertMsg f.name fu.maxSize ∈
        (onDrop fu mkId now documents files).alerts) ∧
    (fu.maxSize < f.size →
      ∀ d ∈ (onDrop fu mkId now documents files).added,
        ¬(d.name = f.name ∧ d.size = f.size)) ∧
    (f.size ≤ fu.maxSize → validateFileSize f fu.maxSize = true) := by
  refine ⟨?_, ?_, ?_⟩
  · intro h1 hbig
    have h2 : validateFileSize f fu.maxSize = false := by
      simp [validateFileSize, Nat.not_le.mpr hbig]
    exact onDropGo_size_alert fu mkId now files 0 f hmem h1 h2
  · intro hbig d hd hboth
    have hsize := ((onDropGo_added_sound fu mkId now files 0).1 d hd).2
    rw [hboth.2] at hsize
    omega
  · intro hle
    simp [validateFileSize, hle]

/-- C6 witness: an oversized `.pdf` file raises the size alert and is
not added. -/
theorem oversized_rejected_with_size_message_witness :
    sizeAlertMsg "laudo.pdf" sampleUploadCfg.maxSize ∈
      (onDrop sampleUploadCfg sampleMkId 0 []
        [⟨"laudo.pdf", "application/pdf", 20971520⟩]).alerts := by
  exact (oversized_rejected_with_size_message sampleUploadCfg sampleMkId 0
    [] [⟨"laudo.pdf", "application/pdf", 20971520⟩]
    ⟨"laudo.pdf", "application/pdf", 20971520⟩
    (List.mem_singleton.mpr rfl)).1 (by decide) (by decide)

/-- C6 counterexample: a file that is both of a disallowed type and
oversized is rejected with the type alert only — the claimed
size-specific message is never raised for it. -/
theorem oversized_bad_type_gets_type_message :
    sampleUploadCfg.maxSize < bigExeFile.size ∧
    (onDrop sampleUploadCfg sampleMkId 0 [] [bigExeFile]).alerts =
      [typeAlertMsg bigExeFile.name] ∧
    typeAlertMsg bigExeFile.name ≠
      sizeAlertMsg bigExeFile.name sampleUploadCfg.maxSize := by
  refine ⟨by decide, by decide, by decide⟩

/-- Characters survive the `javascript:` removal pass only if they were in
the input. -/
theorem stripJsProtocol_subset (l : List Char) : stripJsProtocol l ⊆ l := by
  induction l using stripJsProtocol.induct with
  | case1 => intro x hx; simp [stripJsProtocol] at hx
  | case2 c cs h ih =>
      rw [stripJsProtocol, if_pos h]
      intro x hx
      exact List.drop_subset _ _ (ih hx)
  | case3 c cs h ih =>
      rw [stripJsProtocol, if_neg h]
      intro x hx
      rcases List.mem_cons.mp hx with hx | hx
      · exact hx ▸ List.mem_cons_self _ _
      · exact List.mem_cons_of_mem _ (ih hx)

/-- Characters survive the event-handler removal pass only if they were
in the input. -/
theorem stripEventHandlers_subset (l : List Char) :
    stripEventHandlers l ⊆ l := by
  induction l using stripEventHandlers.induct with
  | case1 => intro x hx; simp [stripEventHandlers] at hx
  | case2 c => intro x hx; simpa [stripEventHandlers] using hx
  | case3 c d ds hon hmatch ih =>
      rw [stripEventHandlers, if_pos hon, if_pos hmatch]
      intro x hx
      exact List.mem_cons_of_mem _
        (List.mem_cons_of_mem _ (List.drop_subset _ _ (ih hx)))
  | case4 c d ds hon hmatch ih =>
      rw [stripEventHandlers, if_pos hon, if_neg hmatch]
      intro x hx
      rcases List.mem_cons.mp hx with hx | hx
      · exact hx ▸ List.mem_cons_self _ _
      · exact List.mem_cons_of_mem _ (ih hx)
  | case5 c d ds hon ih =>
      rw [stripEventHandlers, if_neg hon]
      intro x hx
      rcases List.mem_cons.mp hx with hx | hx
      · exact hx ▸ List.mem_cons_self _ _
      · exact List.mem_cons_of_mem _ (ih hx)

/-- Characters survive the trim only if they were in the input. -/
theorem jsTrim_subset (l : List Char) : jsTrim l ⊆ l := by
  intro x hx
  rw [jsTrim, List.mem_reverse] at hx
  have h1 := (List.dropWhile_sublist isJsWhitespace).subset hx
  rw [List.mem_reverse] at h1
  exact (List.dropWhile_sublist isJsWhitespace).subset h1

/-- The head of a `dropWhile` fails the dropped predicate. -/
theorem head?_dropWhile_false {p : Char → Bool} :
    ∀ {l : List Char} {c : Char},
      (l.dropWhile p).head? = some c → p c = false := by
  intro l
  induction l with
  | nil => intro c h; simp [List.dropWhile] at h
  | cons a as ih =>
      intro c h
      by_cases ha : p a
      · rw [List.dropWhile_cons, if_pos ha] at h
        exact ih h
      · rw [List.dropWhile_cons, if_neg ha] at h
        simp only [List.head?_cons, Option.some.injEq] at h
        subst h
        exact Bool.not_eq_true _ ▸ Bool.of_not_eq_true ha

/-- A non-empty `dropWhile` keeps the last element of the list. -/
theorem getLast?_dropWhile_ne_nil {p : Char → Bool} :
    ∀ {l : List Char}, l.dropWhile p ≠ [] →
      (l.dropWhile p).getLast? = l.getLast? := by
  intro l
  induction l with
  | nil => intro h; simp [List.dropWhile] at h
  | cons a as ih =>
      intro h
      by_cases ha : p a
      · rw [List.dropWhile_cons, if_pos ha] at h ⊢
        have has : as ≠ [] := by
          intro hnil
          rw [hnil] at h
          simp [List.dropWhile] at h
        rw [ih h]
        cases as with
        | nil => exact absurd rfl has
        | cons b bs => rw [List.getLast?_cons_cons]
      · rw [List.dropWhile_cons, if_neg ha]

/-- The head of a trimmed list is not whitespace. -/
theorem jsTrim_head_not_ws {l : List Char} {c : Char}
    (h : (jsTrim l).head? = some c) : isJsWhitespace c = false := by
  rw [jsTrim, List.head?_reverse] at h
  have hne : (l.dropWhile isJsWhitespace).reverse.dropWhile
      isJsWhitespace ≠ [] := by
    intro hnil
    rw [hnil] at h
    simp at h
  rw [getLast?_dropWhile_ne_nil hne, List.getLast?_reverse] at h
  exact head?_dropWhile_false h

/-- The last element of a trimmed list is not whitespace. -/
theorem jsTrim_getLast_not_ws {l : List Char} {c : Char}
    (h : (jsTrim l).getLast? = some c) : isJsWhitespace c = false := by
  rw [jsTrim, List.getLast?_reverse] at h
  exact head?_dropWhile_false h

/-- C10 (confirmed). `sanitizeInput` yields a string with no `<`, no `>`,
and no leading or trailing whitespace: the first pass removes every angle
bracket, the later passes only delete characters, and the final trim
leaves no whitespace at either end. -/
theorem sanitizeInput_no_angle_trimmed (s : String) :
    ('<' ∉ (sanitizeInput s).data ∧ '>' ∉ (sanitizeInput s).data) ∧
    (∀ c, (sanitizeInput s).data.head? = some c →
      isJsWhitespace c = false) ∧
    (∀ c, (sanitizeInput s).data.getLast? = some c →
      isJsWhitespace c = false) := by
  have hchain : ∀ x, x ∈ (sanitizeInput s).data →
      x ∈ s.data.filter (fun c => !isAngle c) := by
    intro x hx
    exact stripJsProtocol_subset _
      (stripEventHandlers_subset _ (jsTrim_subset _ hx))
  refine ⟨⟨?_, ?_⟩, ?_, ?_⟩
  · intro hmem
    have := List.of_mem_filter (hchain _ hmem)
    simp [isAngle] at this
  · intro hmem
    have := List.of_mem_filter (hchain _ hmem)
    simp [isAngle] at this
  · intro c hc
    exact jsTrim_head_not_ws hc
  · intro c hc
    exact jsTrim_getLast_not_ws hc

/-- C10 witness: concrete sanitizations — the surviving head is not
whitespace, and the angle brackets of a concrete payload are gone. -/
theorem sanitizeInput_no_angle_trimmed_witness :
    isJsWhitespace 'x' = false ∧
    '<' ∉ (sanitizeInput "  <b>Olá</b> javascript:alert(1) onclick=x ").data := by
  constructor
  · refine (sanitizeInput_no_angle_trimmed "  x  ").2.1 'x' ?_
    simp [sanitizeInput, jsTrim, stripEventHandlers, stripJsProtocol,
      lowerMatches, jsProtocolChars, isJsWhitespace, isAngle,
      List.dropWhile]
  · exact (sanitizeInput_no_angle_trimmed
      "  <b>Olá</b> javascript:alert(1) onclick=x ").1.1

end JurisAI
